import Mathlib

/- Verification development for the certificate-authority core of IntrusionJS
   (src/ca.js): a shallow embedding of the module's data model and operations.

   Modelling conventions:
   - JS `Date` values are modelled at calendar-day granularity (`SimpleDate`),
     which is the granularity at which the source manipulates them
     (`setDate(getDate() - 1)` and `setFullYear(...)`).
   - The RSA key-pair / PEM codec is the external node-forge library (explicitly
     out of scope for this module); it is modelled algebraically: a key pair
     generated from entropy seed `s` has public-key identity `2*s` and
     private-key identity `2*s + 1`, PEM encoding is the tagged `FileContent`
     wrapper, and an RSA-SHA256 signature made with private key `p` verifies
     exactly against public key `p - 1` (its paired public key).
   - The filesystem is an association list from paths (lists of path
     components, mirroring `path.join`) to file contents.  `fs.writeFile`
     failures are injected through a `writeFails` oracle; a write that fails
     leaves the filesystem unchanged, as the source's callback-reported errors
     do.  Node-style callback errors and synchronously thrown exceptions are
     both modelled as the `Except.error` outcome.
   - Entropy consumption (`Math.random`, RSA key generation) is modelled by
     explicit seed/draw parameters in an environment record. -/

structure SimpleDate where
  year : Nat
  month : Nat
  day : Nat
deriving DecidableEq

def isLeap (y : Nat) : Bool :=
  y % 4 == 0 && (y % 100 != 0 || y % 400 == 0)

def daysInMonth (y m : Nat) : Nat :=
  if m == 2 then (if isLeap y then 29 else 28)
  else if m == 4 || m == 6 || m == 9 || m == 11 then 30
  else 31

/-- JS `d.setDate(d.getDate() - 1)`: one calendar day earlier, with
month/year rollover as `Date` normalisation performs it. -/
def subDay (d : SimpleDate) : SimpleDate :=
  if 1 < d.day then ⟨d.year, d.month, d.day - 1⟩
  else if 1 < d.month then ⟨d.year, d.month - 1, daysInMonth d.year (d.month - 1)⟩
  else ⟨d.year - 1, 12, 31⟩

/-- JS `d.setFullYear(y)`: replace the year, keeping month and day; a
Feb 29 that does not exist in year `y` normalises to Mar 1. -/
def setFullYearJS (d : SimpleDate) (y : Nat) : SimpleDate :=
  if d.day ≤ daysInMonth y d.month then ⟨y, d.month, d.day⟩
  else ⟨y, d.month + 1, d.day - daysInMonth y d.month⟩

/-- Number of leap years in `[0, y)` (proleptic Gregorian). -/
def leapCount (y : Nat) : Nat :=
  (y + 3) / 4 - (y + 99) / 100 + (y + 399) / 400

def daysBeforeMonth (y m : Nat) : Nat :=
  (List.range (m - 1)).foldl (fun acc k => acc + daysInMonth y (k + 1)) 0

/-- Linear day index of a calendar date; differences of `dayNumber` measure
validity windows in days. -/
def dayNumber (d : SimpleDate) : Nat :=
  365 * d.year + leapCount d.year + daysBeforeMonth d.year d.month + d.day

/-- One hexadecimal digit as produced by JS `Number.prototype.toString(16)`
(lowercase). -/
def hexChar (n : Nat) : Char :=
  if n < 10 then Char.ofNat (48 + n) else Char.ofNat (87 + n)

def isHexChar (c : Char) : Bool :=
  c.isDigit || ('a' ≤ c && c ≤ 'f')

/-- Fuel-driven base-16 digit expansion (most significant digit first);
`fuel = n + 1` always suffices since the argument shrinks by a factor 16. -/
def toHexListAux : Nat → Nat → List Char
  | 0, _ => []
  | fuel + 1, n => if n == 0 then [] else toHexListAux fuel (n / 16) ++ [hexChar (n % 16)]

/-- JS `n.toString(16)` for a natural number, as a character list. -/
def jsToHex (n : Nat) : List Char :=
  if n == 0 then ['0'] else toHexListAux (n + 1) n

/-- JS `` `00000000${s}`.slice(-8) ``: the last 8 characters of the
zero-prefixed string. -/
def last8 (l : List Char) : List Char :=
  (List.replicate 8 '0' ++ l).drop l.length

/-- `CA.randomSerialNumber`: four independent draws of
`Math.floor(Math.random() * 256 ** 4)`, each rendered in hex, left-padded
to 8 characters, and concatenated. -/
def randomSerialNumber (draws : Fin 4 → Nat) : String :=
  String.mk (List.flatten ([draws 0, draws 1, draws 2, draws 3].map
    (fun v => last8 (jsToHex v))))

/-- One `{name/shortName, value}` attribute object of a distinguished name.
`value` is `none` when the JS value is `undefined`. -/
structure Attr where
  name : String
  value : Option String
deriving DecidableEq

/-- One subjectAltName entry: `{type: 7, ip: host}` or `{type: 2, value: host}`
(the host string is stored in `value` for both). -/
structure AltName where
  type : Nat
  value : String
deriving DecidableEq

inductive CertExt where
  | basicConstraints (cA : Bool)
  | keyUsage (keyCertSign digitalSignature nonRepudiation keyEncipherment dataEncipherment : Bool)
  | extKeyUsage (serverAuth clientAuth codeSigning emailProtection timeStamping : Bool)
  | nsCertType (client server email objsign sslCA emailCA objCA : Bool)
  | subjectKeyIdentifier
  | subjectAltName (altNames : List AltName)

/-- The `CA_ATTRIBUTES` constant. -/
def CA_ATTRIBUTES : List Attr :=
  [⟨"commonName", some "IntrusionJSCA"⟩,
   ⟨"countryName", some "Internet"⟩,
   ⟨"ST", some "Internet"⟩,
   ⟨"localityName", some "Internet"⟩,
   ⟨"organizationName", some "IntrusionJS Interception Proxy"⟩,
   ⟨"OU", some "CA"⟩]

/-- The `CA_EXTENSIONS` constant. -/
def CA_EXTENSIONS : List CertExt :=
  [.basicConstraints true,
   .keyUsage true true true true true,
   .extKeyUsage true true true true true,
   .nsCertType true true true true true true true,
   .subjectKeyIdentifier]

/-- The `SERVER_ATTRIBUTES` constant. -/
def SERVER_ATTRIBUTES : List Attr :=
  [⟨"countryName", some "Internet"⟩,
   ⟨"ST", some "Internet"⟩,
   ⟨"localityName", some "Internet"⟩,
   ⟨"organizationName", some "IntrusionJS Interception Proxy"⟩,
   ⟨"OU", some "IntrusionJS Interception Proxy Server Certificate"⟩]

/-- The `SERVER_EXTENSIONS` constant (usage flags absent from the source
object are `false`). -/
def SERVER_EXTENSIONS : List CertExt :=
  [.basicConstraints false,
   .keyUsage false true false true true,
   .extKeyUsage true true false false false,
   .nsCertType true true false false false false false,
   .subjectKeyIdentifier]

/-- A node-forge certificate as populated by this module.  `signedWith`
records the `cert.sign(privateKey, md.sha256.create())` call: the signing
private key identity and the digest name. -/
structure Certificate where
  serialNumber : String
  notBefore : SimpleDate
  notAfter : SimpleDate
  subject : List Attr
  issuer : List Attr
  publicKey : Nat
  extensions : List CertExt
  signedWith : Option (Nat × String)

/-- A generated RSA key pair, by key-material identity. -/
structure KeyPairIds where
  privateKey : Nat
  publicKey : Nat
deriving DecidableEq

/-- `pki.rsa.generateKeyPair`: the pair generated from entropy seed `s`. -/
def generateKeyPair (s : Nat) : KeyPairIds :=
  ⟨2 * s + 1, 2 * s⟩

/-- RSA-SHA256 signature verification: a certificate verifies against public
key `pub` exactly when it was signed with the paired private key and the
SHA-256 digest. -/
def sigVerifiesAgainst (c : Certificate) (pub : Nat) : Prop :=
  c.signedWith = some (pub + 1, "sha256")

/-- PEM-encoded file contents; `garbage` stands for any byte string that is
not a valid PEM encoding produced by the codec. -/
inductive FileContent where
  | certPem (c : Certificate)
  | privateKeyPem (k : Nat)
  | publicKeyPem (k : Nat)
  | garbage (s : String)

/-- `pki.certificateFromPem`; `none` models the decode throwing. -/
def certificateFromPem : FileContent → Option Certificate
  | .certPem c => some c
  | _ => none

/-- `pki.privateKeyFromPem`; `none` models the decode throwing. -/
def privateKeyFromPem : FileContent → Option Nat
  | .privateKeyPem k => some k
  | _ => none

/-- `pki.publicKeyFromPem`; `none` models the decode throwing. -/
def publicKeyFromPem : FileContent → Option Nat
  | .publicKeyPem k => some k
  | _ => none

/-- The filesystem: paths are `path.join` component lists. -/
def FS := List (List String × FileContent)

def FS.read (fs : FS) (p : List String) : Option FileContent :=
  match fs with
  | [] => none
  | (q, w) :: rest => if p = q then some w else FS.read rest p

def FS.write (fs : FS) (p : List String) (v : FileContent) : FS :=
  match fs with
  | [] => [(p, v)]
  | (q, w) :: rest => if p = q then (p, v) :: rest else (q, w) :: FS.write rest p v

/-- `fs.existsSync`. -/
def FS.existsFile (fs : FS) (p : List String) : Bool :=
  (FS.read fs p).isSome

/-- The mutable fields of a `CA` instance. -/
structure CA where
  baseCAFolder : List String
  certsFolder : List String
  keysFolder : List String
  CAcert : Option Certificate
  CAkeys : Option KeyPairIds

/-- Errors surfaced through the node-style callback error argument, or by a
synchronously thrown exception. -/
inductive CAErr where
  | readError
  | decodeError
  | writeError
deriving DecidableEq

/-- Environment for root creation: the wall clock, the RSA generation
entropy, the `Math.random` draws of `randomSerialNumber`, and the oracle
saying which `fs.writeFile` calls fail. -/
structure CAEnv where
  now : SimpleDate
  caSeed : Nat
  draws : Fin 4 → Nat
  writeFails : List String → Bool

/-- The `CA` constructor plus the folder assignments done by `create`
(`mkdirp.sync` is a no-op in the model: directories are implicit). -/
def caShell (caFolder : List String) : CA :=
  { baseCAFolder := caFolder
  , certsFolder := caFolder ++ ["certs"]
  , keysFolder := caFolder ++ ["keys"]
  , CAcert := none
  , CAkeys := none }

/-- The self-signed root certificate built by `generateCA`: random serial,
backdated validity, the fixed root distinguished name as both subject and
issuer, the CA extension profile, signed with its own private key over
SHA-256. -/
def rootCert (env : CAEnv) : Certificate :=
  { serialNumber := randomSerialNumber env.draws
  , notBefore := subDay env.now
  , notAfter := setFullYearJS env.now ((subDay env.now).year + 1)
  , subject := CA_ATTRIBUTES
  , issuer := CA_ATTRIBUTES
  , publicKey := (generateKeyPair env.caSeed).publicKey
  , extensions := CA_EXTENSIONS
  , signedWith := some ((generateKeyPair env.caSeed).privateKey, "sha256") }

/-- `CA.generateCA`: generate a 2048-bit key pair, build and self-sign the
root certificate, record it on the instance, and attempt all three artifact
writes in parallel; the callback receives an error as soon as any write
fails (writes that succeeded still landed on disk). -/
def generateCA (env : CAEnv) (self : CA) (fs : FS) : Except CAErr CA × FS :=
  let keys := generateKeyPair env.caSeed
  let cert := rootCert env
  let self' := { self with CAcert := some cert, CAkeys := some keys }
  let p1 := self.certsFolder ++ ["ca.pem"]
  let p2 := self.keysFolder ++ ["ca.private.key"]
  let p3 := self.keysFolder ++ ["ca.public.key"]
  let fs1 := if env.writeFails p1 then fs else FS.write fs p1 (.certPem cert)
  let fs2 := if env.writeFails p2 then fs1 else FS.write fs1 p2 (.privateKeyPem keys.privateKey)
  let fs3 := if env.writeFails p3 then fs2 else FS.write fs2 p3 (.publicKeyPem keys.publicKey)
  (if env.writeFails p1 || env.writeFails p2 || env.writeFails p3
     then .error .writeError else .ok self', fs3)

/-- `CA.loadCA`: read the three root artifact files (a failed read surfaces
through the callback error), then decode them (a failed decode throws). -/
def loadCA (self : CA) (fs : FS) : Except CAErr CA :=
  match FS.read fs (self.certsFolder ++ ["ca.pem"]),
        FS.read fs (self.keysFolder ++ ["ca.private.key"]),
        FS.read fs (self.keysFolder ++ ["ca.public.key"]) with
  | some certPEM, some keyPrivatePEM, some keyPublicPEM =>
    match certificateFromPem certPEM, privateKeyFromPem keyPrivatePEM,
          publicKeyFromPem keyPublicPEM with
    | some cert, some kpriv, some kpub =>
      .ok { self with CAcert := some cert, CAkeys := some ⟨kpriv, kpub⟩ }
    | _, _, _ => .error .decodeError
  | _, _, _ => .error .readError

/-- `CA.create`: build the instance, ensure the folders, and either load the
existing root (when `certs/ca.pem` exists) or generate a fresh one.  The
resulting filesystem is returned alongside the callback outcome. -/
def create (env : CAEnv) (caFolder : List String) (fs : FS) : Except CAErr CA × FS :=
  let ca := caShell caFolder
  if FS.existsFile fs (ca.certsFolder ++ ["ca.pem"]) then (loadCA ca fs, fs)
  else generateCA env ca fs

/-- The `hosts` argument of `generateServerCertificateKeys`: a JS array of
strings or a plain string. -/
inductive HostsInput where
  | arr (hosts : List String)
  | str (s : String)

/-- Errors thrown during leaf issuance (all are JS `TypeError`s in the
source; the constructor records the throwing expression). -/
inductive IssueErr where
  | nullCACert
  | mapNotAFunction
  | replaceOnUndefined
  | nullCAKeys
deriving DecidableEq

/-- Environment for one leaf issuance: wall clock, key-generation entropy and
serial-number draws. -/
structure LeafEnv where
  now : SimpleDate
  leafSeed : Nat
  draws : Fin 4 → Nat

/-- The test `host.match(/^[\d.]+$/)`: nonempty and every character a
decimal digit or a dot. -/
def ipLike (s : String) : Bool :=
  !s.data.isEmpty && s.data.all (fun c => c.isDigit || c == '.')

/-- One SAN entry: `{type: 7, ip: host}` when `host` matches the IP pattern,
`{type: 2, value: host}` otherwise. -/
def toAltName (host : String) : AltName :=
  if ipLike host then ⟨7, host⟩ else ⟨2, host⟩

/-- The `hosts.map(...)` building the subjectAltName entries; on a plain
string `hosts` has no `map` method, so a `TypeError` is thrown. -/
def sanAltNames : HostsInput → Except IssueErr (List AltName)
  | .arr l => .ok (l.map toAltName)
  | .str _ => .error .mapNotAFunction

/-- `mainHost.replace(/\*/g, "_")`: the global single-character regex
substitutes each `*` independently. -/
def certFileName (mainHost : String) : String :=
  String.mk (mainHost.data.map (fun c => if c = '*' then '_' else c))

/-- `fs.writeFile` with an error-logging callback: the failure is reported
but does not abort issuance; the file is simply not (re)written. -/
def bestEffortWrite (wf : List String → Bool) (fs : FS) (p : List String)
    (v : FileContent) : FS :=
  if wf p then fs else FS.write fs p v

/-- The leaf certificate populated by `generateServerCertificateKeys`:
serial, backdated validity, subject with the main host as commonName, the
given issuer attributes, server extensions plus the SAN list, signed with
the root private key over SHA-256. -/
def leafCert (env : LeafEnv) (mainHost : Option String) (issuerAttrs : List Attr)
    (caPriv : Nat) (altNames : List AltName) : Certificate :=
  { serialNumber := randomSerialNumber env.draws
  , notBefore := subDay env.now
  , notAfter := setFullYearJS env.now ((subDay env.now).year + 1)
  , subject := (⟨"commonName", mainHost⟩ : Attr) :: SERVER_ATTRIBUTES
  , issuer := issuerAttrs
  , publicKey := (generateKeyPair env.leafSeed).publicKey
  , extensions := SERVER_EXTENSIONS ++ [.subjectAltName altNames]
  , signedWith := some (caPriv, "sha256") }

/-- The three independent best-effort leaf writes:
`certsFolder/<fname>.pem`, `keysFolder/<fname>.key`,
`keysFolder/<fname>.public.key`. -/
def leafWrites (wf : List String → Bool) (self : CA) (fname : String)
    (certPem keyPrivatePem keyPublicPem : FileContent) (fs : FS) : FS :=
  let fsA := bestEffortWrite wf fs (self.certsFolder ++ [fname ++ ".pem"]) certPem
  let fsB := bestEffortWrite wf fsA (self.keysFolder ++ [fname ++ ".key"]) keyPrivatePem
  bestEffortWrite wf fsB (self.keysFolder ++ [fname ++ ".public.key"]) keyPublicPem

/-- `CA.generateServerCertificateKeys`, in source order: take `hosts[0]` (or
`hosts` itself when not an array) as the main host, generate a leaf key
pair, build the certificate, take the issuer from
`this.CAcert.issuer.attributes`, map `hosts` to the SAN entries, sign with
the root private key, encode the three PEM artifacts, derive the cache file
name from the main host, fire the three best-effort writes, and deliver
`(certPem, keyPrivatePem)` to the callback. -/
def generateServerCertificateKeys (wf : List String → Bool) (env : LeafEnv)
    (self : CA) (hosts : HostsInput) (fs : FS) :
    Except IssueErr (FileContent × FileContent × FS) :=
  let mainHost : Option String :=
    match hosts with
    | .arr l => l.head?
    | .str s => some s
  let keysServer := generateKeyPair env.leafSeed
  match self.CAcert with
  | none => .error .nullCACert
  | some caCert =>
    match sanAltNames hosts with
    | .error e => .error e
    | .ok altNames =>
      match self.CAkeys with
      | none => .error .nullCAKeys
      | some caKeys =>
        let certServer := leafCert env mainHost caCert.issuer caKeys.privateKey altNames
        let certPem := FileContent.certPem certServer
        let keyPrivatePem := FileContent.privateKeyPem keysServer.privateKey
        let keyPublicPem := FileContent.publicKeyPem keysServer.publicKey
        match mainHost with
        | none => .error .replaceOnUndefined
        | some m =>
          .ok (certPem, keyPrivatePem,
               leafWrites wf self (certFileName m) certPem keyPrivatePem keyPublicPem fs)

/-- The subjectAltName entries carried by a certificate's extension list. -/
def sanEntries (c : Certificate) : List AltName :=
  c.extensions.foldr
    (fun e acc => match e with | .subjectAltName l => l ++ acc | _ => acc) []

/-- Whether a callback-style outcome is a success. -/
def exceptOk {ε α : Type} : Except ε α → Bool
  | .ok _ => true
  | .error _ => false

/-- The `(certificateText, privateKeyText)` pair a caller receives from leaf
issuance, forgetting the disk outcome. -/
def issuedPair (r : Except IssueErr (FileContent × FileContent × FS)) :
    Option (FileContent × FileContent) :=
  match r with
  | .ok (c, k, _) => some (c, k)
  | .error _ => none

/-- The root certificate validity window produced by `create`, if any. -/
def rootValidityAfterCreate (env : CAEnv) (caFolder : List String) (fs : FS) :
    Option (SimpleDate × SimpleDate) :=
  match (create env caFolder fs).1 with
  | .ok ca => ca.CAcert.map (fun c => (c.notBefore, c.notAfter))
  | .error _ => none

/-- A no-failure write oracle. -/
def noFail : List String → Bool := fun _ => false

/-- Concrete root-creation environment used by witnesses. -/
def envA : CAEnv :=
  { now := ⟨2025, 6, 15⟩, caSeed := 1, draws := fun _ => 0, writeFails := noFail }

/-- A second, distinct environment: a later clock and fresh entropy. -/
def envB : CAEnv :=
  { now := ⟨2025, 10, 2⟩, caSeed := 7, draws := fun _ => 3735928559, writeFails := noFail }

/-- Root-creation environment whose clock reads January 1. -/
def envJan1 : CAEnv :=
  { now := ⟨2026, 1, 1⟩, caSeed := 0, draws := fun _ => 0, writeFails := noFail }

/-- Environment whose `ca.private.key` write fails. -/
def envC7 : CAEnv :=
  { now := ⟨2025, 6, 15⟩, caSeed := 1, draws := fun _ => 0
  , writeFails := fun p => p == ["base", "keys", "ca.private.key"] }

/-- Concrete leaf-issuance environment used by witnesses. -/
def envL : LeafEnv :=
  { now := ⟨2025, 6, 15⟩, leafSeed := 4, draws := fun _ => 17 }

/-- A concrete self-signed root certificate. -/
def rootCertC : Certificate :=
  { serialNumber := randomSerialNumber (fun _ => 0)
  , notBefore := ⟨2025, 6, 14⟩
  , notAfter := ⟨2026, 6, 15⟩
  , subject := CA_ATTRIBUTES
  , issuer := CA_ATTRIBUTES
  , publicKey := 2
  , extensions := CA_EXTENSIONS
  , signedWith := some (3, "sha256") }

/-- A concrete opened CA instance holding `rootCertC` and its key pair. -/
def stC : CA :=
  { baseCAFolder := ["base"]
  , certsFolder := ["base", "certs"]
  , keysFolder := ["base", "keys"]
  , CAcert := some rootCertC
  , CAkeys := some ⟨3, 2⟩ }

/-- A root store whose three files exist but whose certificate is corrupt. -/
def fsCorrupt : FS :=
  [(["base", "certs", "ca.pem"], .garbage "not a certificate"),
   (["base", "keys", "ca.private.key"], .privateKeyPem 9),
   (["base", "keys", "ca.public.key"], .publicKeyPem 8)]

theorem FS.read_write_self (fs : FS) (p : List String) (v : FileContent) :
    FS.read (FS.write fs p v) p = some v := by
  induction fs with
  | nil => simp [FS.write, FS.read]
  | cons hd tl ih =>
    obtain ⟨q, w⟩ := hd
    by_cases h : p = q <;> simp [FS.write, FS.read, h, ih]

theorem FS.read_write_ne (fs : FS) (p q : List String) (v : FileContent)
    (h : p ≠ q) : FS.read (FS.write fs q v) p = FS.read fs p := by
  induction fs with
  | nil => simp [FS.write, FS.read, h]
  | cons hd tl ih =>
    obtain ⟨r, w⟩ := hd
    by_cases hq : q = r
    · subst hq
      simp [FS.write, FS.read, h]
    · by_cases hp : p = r <;> simp [FS.write, FS.read, hq, hp, ih]

theorem snoc_ne {l1 l2 : List String} {a b : String} (hab : a ≠ b) :
    l1 ++ [a] ≠ l2 ++ [b] := by
  intro he
  have hg := congrArg List.getLast? he
  simp [List.getLast?_concat] at hg
  exact hab hg

theorem string_append_ne (f : String) {a b : String} (hab : a.data ≠ b.data) :
    f ++ a ≠ f ++ b := by
  intro he
  have hd : f.data ++ a.data = f.data ++ b.data := congrArg String.data he
  exact hab (List.append_cancel_left hd)

theorem last8_length (l : List Char) : (last8 l).length = 8 := by
  simp [last8]
  omega

theorem hexChar_hex : ∀ m, m < 16 → isHexChar (hexChar m) = true := by decide

theorem toHexListAux_hex (fuel : Nat) : ∀ (n : Nat), ∀ c ∈ toHexListAux fuel n,
    isHexChar c = true := by
  induction fuel with
  | zero => simp [toHexListAux]
  | succ fuel ih =>
    intro n c hc
    by_cases h : n == 0
    · simp [toHexListAux, h] at hc
    · simp [toHexListAux, h] at hc
      rcases hc with hc | hc
      · exact ih _ c hc
      · subst hc
        exact hexChar_hex _ (Nat.mod_lt _ (by decide))

theorem jsToHex_hex (n : Nat) : ∀ c ∈ jsToHex n, isHexChar c = true := by
  intro c hc
  by_cases h : n == 0
  · simp [jsToHex, h] at hc
    subst hc
    decide
  · simp [jsToHex, h] at hc
    exact toHexListAux_hex _ _ c hc

theorem last8_jsToHex_hex (n : Nat) : ∀ c ∈ last8 (jsToHex n),
    isHexChar c = true := by
  intro c hc
  have hm : c ∈ List.replicate 8 '0' ++ jsToHex n := List.mem_of_mem_drop hc
  rcases List.mem_append.1 hm with hm | hm
  · have := List.eq_of_mem_replicate hm
    subst this
    decide
  · exact jsToHex_hex n c hm

/-- Claim C8: every call to `randomSerialNumber` returns the concatenation of
four independently drawn blocks, each padded to exactly 8 hex digits, so the
serial is always exactly 32 hexadecimal characters regardless of the drawn
values. -/
theorem claim8_serial_width (draws : Fin 4 → Nat) :
    (randomSerialNumber draws).length = 32
    ∧ ((randomSerialNumber draws).data.all isHexChar) = true
    ∧ randomSerialNumber draws = String.mk
        (last8 (jsToHex (draws 0)) ++ last8 (jsToHex (draws 1))
          ++ last8 (jsToHex (draws 2)) ++ last8 (jsToHex (draws 3)))
    ∧ ∀ v : Nat, (last8 (jsToHex v)).length = 8 := by
  refine ⟨?_, ?_, ?_, fun v => last8_length _⟩
  · show (List.flatten _).length = 32
    simp [List.flatten, last8_length]
  · rw [List.all_eq_true]
    intro c hc
    have hc' : c ∈ List.flatten ([draws 0, draws 1, draws 2, draws 3].map
        (fun v => last8 (jsToHex v))) := hc
    rcases List.mem_flatten.1 hc' with ⟨l, hl, hcl⟩
    simp [List.map] at hl
    rcases hl with h | h | h | h <;> subst h <;>
      exact last8_jsToHex_hex _ c hcl
  · show String.mk _ = String.mk _
    simp [List.flatten, List.append_assoc]

theorem genSCK_arr (wf : List String → Bool) (env : LeafEnv) (self : CA)
    (c0 : Certificate) (k0 : KeyPairIds) (h : String) (rest : List String)
    (fs : FS) (hc : self.CAcert = some c0) (hk : self.CAkeys = some k0) :
    generateServerCertificateKeys wf env self (.arr (h :: rest)) fs =
      .ok (.certPem (leafCert env (some h) c0.issuer k0.privateKey
              ((h :: rest).map toAltName)),
           .privateKeyPem (generateKeyPair env.leafSeed).privateKey,
           leafWrites wf self (certFileName h)
             (.certPem (leafCert env (some h) c0.issuer k0.privateKey
                ((h :: rest).map toAltName)))
             (.privateKeyPem (generateKeyPair env.leafSeed).privateKey)
             (.publicKeyPem (generateKeyPair env.leafSeed).publicKey) fs) := by
  simp [generateServerCertificateKeys, hc, hk, sanAltNames]

/-- Claim C2: every leaf certificate produced by
`generateServerCertificateKeys` from an opened authority (whose root
certificate is self-signed, `issuer = subject`, and whose key halves form a
matching RSA pair) carries the root certificate's subject as its issuer and
is signed with the root private key over SHA-256, so its signature verifies
against the root public key. -/
theorem claim2_chain_validity (wf : List String → Bool) (env : LeafEnv)
    (self : CA) (c0 : Certificate) (k0 : KeyPairIds) (h : String)
    (rest : List String) (fs : FS) (hc : self.CAcert = some c0)
    (hk : self.CAkeys = some k0) (hself : c0.issuer = c0.subject)
    (hpair : k0.privateKey = k0.publicKey + 1) :
    ∃ leaf fs', generateServerCertificateKeys wf env self (.arr (h :: rest)) fs
        = .ok (.certPem leaf, .privateKeyPem (generateKeyPair env.leafSeed).privateKey, fs')
      ∧ leaf.issuer = c0.subject
      ∧ leaf.signedWith = some (k0.privateKey, "sha256")
      ∧ sigVerifiesAgainst leaf k0.publicKey := by
  refine ⟨_, _, genSCK_arr wf env self c0 k0 h rest fs hc hk, ?_, rfl, ?_⟩
  · simpa [leafCert] using hself
  · simp [sigVerifiesAgainst, leafCert, hpair]

theorem claim2_witness : ∃ leaf fs',
    generateServerCertificateKeys noFail envL stC (.arr ["example.com"]) []
      = .ok (.certPem leaf, .privateKeyPem (generateKeyPair envL.leafSeed).privateKey, fs')
    ∧ leaf.issuer = rootCertC.subject
    ∧ leaf.signedWith = some ((3 : Nat), "sha256")
    ∧ sigVerifiesAgainst leaf 2 :=
  claim2_chain_validity noFail envL stC rootCertC ⟨3, 2⟩ "example.com" [] []
    rfl rfl rfl rfl

/-- Claim C3: for a nonempty hostname list the issued certificate's
subjectAltName extension has exactly one entry per hostname, in input order
with no de-duplication or sorting; an entry matching the dotted-decimal
pattern becomes an IP-type (7) SAN and every other entry a DNS-type (2)
SAN; in particular ["example.com", "192.0.2.5", "*.example.com"] yields
DNS, IP, DNS in that order. -/
theorem claim3_san_construction (wf : List String → Bool) (env : LeafEnv)
    (self : CA) (c0 : Certificate) (k0 : KeyPairIds) (h : String)
    (rest : List String) (fs : FS) (hc : self.CAcert = some c0)
    (hk : self.CAkeys = some k0) :
    (∃ leaf fs', generateServerCertificateKeys wf env self (.arr (h :: rest)) fs
        = .ok (.certPem leaf, .privateKeyPem (generateKeyPair env.leafSeed).privateKey, fs')
      ∧ sanEntries leaf = (h :: rest).map toAltName
      ∧ (sanEntries leaf).length = (h :: rest).length)
    ∧ ["example.com", "192.0.2.5", "*.example.com"].map toAltName
        = [⟨2, "example.com"⟩, ⟨7, "192.0.2.5"⟩, ⟨2, "*.example.com"⟩] := by
  refine ⟨⟨_, _, genSCK_arr wf env self c0 k0 h rest fs hc hk, ?_, ?_⟩, by decide⟩
  · simp [sanEntries, leafCert, SERVER_EXTENSIONS]
  · simp [sanEntries, leafCert, SERVER_EXTENSIONS]

theorem claim3_witness : (∃ leaf fs',
    generateServerCertificateKeys noFail envL stC
        (.arr ["example.com", "192.0.2.5", "*.example.com"]) []
      = .ok (.certPem leaf, .privateKeyPem (generateKeyPair envL.leafSeed).privateKey, fs')
    ∧ sanEntries leaf
        = ["example.com", "192.0.2.5", "*.example.com"].map toAltName
    ∧ (sanEntries leaf).length
        = (["example.com", "192.0.2.5", "*.example.com"] : List String).length)
    ∧ ["example.com", "192.0.2.5", "*.example.com"].map toAltName
        = [⟨2, "example.com"⟩, ⟨7, "192.0.2.5"⟩, ⟨2, "*.example.com"⟩] :=
  claim3_san_construction noFail envL stC rootCertC ⟨3, 2⟩ "example.com"
    ["192.0.2.5", "*.example.com"] [] rfl rfl

/-- Claim C6: leaf persistence is best-effort — whatever subset of the three
file writes fails, issuance still succeeds and the callback receives the
same in-memory `(certificateText, privateKeyText)` pair it would receive
with no write failures at all. -/
theorem claim6_leaf_persistence_best_effort (wf : List String → Bool)
    (env : LeafEnv) (self : CA) (c0 : Certificate) (k0 : KeyPairIds)
    (h : String) (rest : List String) (fs : FS) (hc : self.CAcert = some c0)
    (hk : self.CAkeys = some k0) :
    issuedPair (generateServerCertificateKeys wf env self (.arr (h :: rest)) fs)
      = issuedPair (generateServerCertificateKeys noFail env self (.arr (h :: rest)) fs)
    ∧ exceptOk (generateServerCertificateKeys wf env self (.arr (h :: rest)) fs) = true := by
  rw [genSCK_arr wf env self c0 k0 h rest fs hc hk,
      genSCK_arr noFail env self c0 k0 h rest fs hc hk]
  exact ⟨rfl, rfl⟩

theorem claim6_witness :
    issuedPair (generateServerCertificateKeys (fun _ => true) envL stC
        (.arr ["example.com"]) [])
      = issuedPair (generateServerCertificateKeys noFail envL stC
        (.arr ["example.com"]) [])
    ∧ exceptOk (generateServerCertificateKeys (fun _ => true) envL stC
        (.arr ["example.com"]) []) = true :=
  claim6_leaf_persistence_best_effort (fun _ => true) envL stC rootCertC
    ⟨3, 2⟩ "example.com" [] [] rfl rfl

/-- Claim C10: although the entry point branches on `Array.isArray(hosts)`
and takes `hosts` itself as main host for a plain string, issuance only
completes for array inputs: on every string input the SAN-construction step
applies `map` to the string and throws before a certificate is produced,
and on an empty array the file-name step throws before the callback runs,
so a nonempty hostname array is an effective precondition. -/
theorem claim10_array_precondition (wf : List String → Bool) (env : LeafEnv)
    (self : CA) (c0 : Certificate) (k0 : KeyPairIds) (fs : FS)
    (hc : self.CAcert = some c0) (hk : self.CAkeys = some k0) :
    (∀ s : String, generateServerCertificateKeys wf env self (.str s) fs
        = .error .mapNotAFunction)
    ∧ generateServerCertificateKeys wf env self (.arr []) fs
        = .error .replaceOnUndefined
    ∧ (∀ (h : String) (rest : List String),
        exceptOk (generateServerCertificateKeys wf env self (.arr (h :: rest)) fs)
          = true) := by
  refine ⟨?_, ?_, ?_⟩
  · intro s
    simp [generateServerCertificateKeys, hc, hk, sanAltNames]
  · simp [generateServerCertificateKeys, hc, hk, sanAltNames]
  · intro h rest
    rw [genSCK_arr wf env self c0 k0 h rest fs hc hk]
    rfl

theorem claim10_witness :
    (∀ s : String, generateServerCertificateKeys noFail envL stC (.str s) []
        = .error .mapNotAFunction)
    ∧ generateServerCertificateKeys noFail envL stC (.arr []) []
        = .error .replaceOnUndefined
    ∧ (∀ (h : String) (rest : List String),
        exceptOk (generateServerCertificateKeys noFail envL stC (.arr (h :: rest)) [])
          = true) :=
  claim10_array_precondition noFail envL stC rootCertC ⟨3, 2⟩ [] rfl rfl

/-- Claim C9: the cache file name is obtained purely and totally from the
hostname by replacing every `*` with `_` (so "*.example.com" maps to
"_.example.com"): the substitution preserves length, leaves no `*`, fixes
star-free names, and is used only for the on-disk file paths — the issued
certificate itself carries the raw hostnames in its commonName and SAN
entries. -/
theorem claim9_filesystem_safe_name (env : LeafEnv) (self : CA)
    (c0 : Certificate) (k0 : KeyPairIds) (h : String) (rest : List String)
    (fs : FS) (hc : self.CAcert = some c0) (hk : self.CAkeys = some k0) :
    certFileName "*.example.com" = "_.example.com"
    ∧ (∀ s : String, (certFileName s).length = s.length)
    ∧ (∀ s : String, '*' ∉ (certFileName s).data)
    ∧ (∀ s : String, '*' ∉ s.data → certFileName s = s)
    ∧ (∃ leaf fs', generateServerCertificateKeys noFail env self (.arr (h :: rest)) fs
          = .ok (.certPem leaf, .privateKeyPem (generateKeyPair env.leafSeed).privateKey, fs')
        ∧ leaf.subject = (⟨"commonName", some h⟩ : Attr) :: SERVER_ATTRIBUTES
        ∧ sanEntries leaf = (h :: rest).map toAltName
        ∧ FS.read fs' (self.certsFolder ++ [certFileName h ++ ".pem"])
            = some (.certPem leaf)) := by
  refine ⟨by decide, ?_, ?_, ?_, ?_⟩
  · intro s
    show (s.data.map _).length = s.data.length
    exact List.length_map _ _
  · intro s hmem
    simp [certFileName] at hmem
    rcases hmem with ⟨c, _, hfc⟩
    by_cases hcs : c = '*'
    · rw [if_pos hcs] at hfc
      exact absurd hfc (by decide)
    · rw [if_neg hcs] at hfc
      exact hcs hfc
  · intro s hfree
    have hmap : s.data.map (fun c => if c = '*' then '_' else c) = s.data.map id := by
      refine List.map_congr_left ?_
      intro a ha
      have : a ≠ '*' := fun he => hfree (he ▸ ha)
      simp [this]
    show String.mk _ = s
    rw [hmap, List.map_id]
  · refine ⟨_, _, genSCK_arr noFail env self c0 k0 h rest fs hc hk, rfl, ?_, ?_⟩
    · simp [sanEntries, leafCert, SERVER_EXTENSIONS]
    · have hne12 : self.certsFolder ++ [certFileName h ++ ".pem"]
          ≠ self.keysFolder ++ [certFileName h ++ ".key"] :=
        snoc_ne (string_append_ne _ (by decide))
      have hne13 : self.certsFolder ++ [certFileName h ++ ".pem"]
          ≠ self.keysFolder ++ [certFileName h ++ ".public.key"] :=
        snoc_ne (string_append_ne _ (by decide))
      show FS.read (leafWrites noFail self (certFileName h) _ _ _ fs) _ = _
      simp only [leafWrites, bestEffortWrite, noFail, if_neg Bool.false_ne_true,
        Bool.false_eq_true, if_false]
      rw [FS.read_write_ne _ _ _ _ hne13, FS.read_write_ne _ _ _ _ hne12,
        FS.read_write_self]

theorem claim9_witness :
    certFileName "*.example.com" = "_.example.com"
    ∧ (∀ s : String, (certFileName s).length = s.length)
    ∧ (∀ s : String, '*' ∉ (certFileName s).data)
    ∧ (∀ s : String, '*' ∉ s.data → certFileName s = s)
    ∧ (∃ leaf fs', generateServerCertificateKeys noFail envL stC
            (.arr ["*.example.com"]) []
          = .ok (.certPem leaf, .privateKeyPem (generateKeyPair envL.leafSeed).privateKey, fs')
        ∧ leaf.subject = (⟨"commonName", some "*.example.com"⟩ : Attr) :: SERVER_ATTRIBUTES
        ∧ sanEntries leaf = (["*.example.com"] : List String).map toAltName
        ∧ FS.read fs' (stC.certsFolder ++ [certFileName "*.example.com" ++ ".pem"])
            = some (.certPem leaf)) :=
  claim9_filesystem_safe_name envL stC rootCertC ⟨3, 2⟩ "*.example.com" [] []
    rfl rfl

theorem certificateFromPem_some {f : FileContent} {c : Certificate}
    (h : certificateFromPem f = some c) : f = .certPem c := by
  cases f <;> simp_all [certificateFromPem]

theorem privateKeyFromPem_some {f : FileContent} {k : Nat}
    (h : privateKeyFromPem f = some k) : f = .privateKeyPem k := by
  cases f <;> simp_all [privateKeyFromPem]

theorem publicKeyFromPem_some {f : FileContent} {k : Nat}
    (h : publicKeyFromPem f = some k) : f = .publicKeyPem k := by
  cases f <;> simp_all [publicKeyFromPem]

/-- Claim C4 (recording the divergence): at a clock of January 1 the root
certificate created by `create` is backdated to December 31 of the previous
year, and `setFullYear(notBefore.getFullYear() + 1)` then leaves `notAfter`
equal to the wall-clock date itself, so the validity window is a single day
— far outside the claimed `[notBefore + 364d, notBefore + 366d]` range. -/
theorem claim4_validity_window_bug :
    rootValidityAfterCreate envJan1 ["base"] []
      = some (⟨2025, 12, 31⟩, ⟨2026, 1, 1⟩)
    ∧ dayNumber ⟨2026, 1, 1⟩ - dayNumber ⟨2025, 12, 31⟩ = 1
    ∧ ¬ (364 ≤ dayNumber ⟨2026, 1, 1⟩ - dayNumber ⟨2025, 12, 31⟩) := by
  refine ⟨by decide, by decide, by decide⟩

/-- Claim C7: during root creation (no existing `certs/ca.pem`), a failure
of any of the three artifact writes makes `create` report an error to its
caller instead of completing successfully. -/
theorem claim7_root_persistence_unit (env : CAEnv) (folder : List String)
    (fs : FS)
    (hnew : FS.existsFile fs ((folder ++ ["certs"]) ++ ["ca.pem"]) = false)
    (hfail : env.writeFails ((folder ++ ["certs"]) ++ ["ca.pem"]) = true
      ∨ env.writeFails ((folder ++ ["keys"]) ++ ["ca.private.key"]) = true
      ∨ env.writeFails ((folder ++ ["keys"]) ++ ["ca.public.key"]) = true) :
    (create env folder fs).1 = .error .writeError := by
  have hnew' : FS.existsFile fs ((caShell folder).certsFolder ++ ["ca.pem"])
      = false := hnew
  have hcreate : create env folder fs = generateCA env (caShell folder) fs := by
    simp only [create]
    rw [if_neg (by simp [hnew'])]
  rw [hcreate]
  unfold generateCA
  rcases hfail with hf | hf | hf
  · have hf' : env.writeFails ((caShell folder).certsFolder ++ ["ca.pem"])
        = true := hf
    simp [hf']
  · have hf' : env.writeFails ((caShell folder).keysFolder ++ ["ca.private.key"])
        = true := hf
    simp [hf']
  · have hf' : env.writeFails ((caShell folder).keysFolder ++ ["ca.public.key"])
        = true := hf
    simp [hf']

theorem claim7_witness : (create envC7 ["base"] []).1 = .error .writeError :=
  claim7_root_persistence_unit envC7 ["base"] [] (by decide)
    (Or.inr (Or.inl (by decide)))

/-- Claim C5: when `certs/ca.pem` exists but the stored root material fails
to decode, `create` surfaces a fatal error and never silently regenerates a
fresh root: the outcome is an error for every environment (no entropy is
consumed) and the filesystem is left untouched; in particular, when all
three files are readable but the certificate fails to decode, the error is
the decode failure. -/
theorem claim5_corrupt_root_store (env : CAEnv) (folder : List String)
    (fs : FS)
    (hex : (FS.read fs ((folder ++ ["certs"]) ++ ["ca.pem"])).isSome = true)
    (hbad : exceptOk (loadCA (caShell folder) fs) = false) :
    exceptOk (create env folder fs).1 = false
    ∧ (create env folder fs).2 = fs
    ∧ (∀ f kp kpb, FS.read fs ((folder ++ ["certs"]) ++ ["ca.pem"]) = some f
        → FS.read fs ((folder ++ ["keys"]) ++ ["ca.private.key"]) = some kp
        → FS.read fs ((folder ++ ["keys"]) ++ ["ca.public.key"]) = some kpb
        → certificateFromPem f = none
        → (create env folder fs).1 = .error .decodeError) := by
  have hex' : FS.existsFile fs ((caShell folder).certsFolder ++ ["ca.pem"])
      = true := hex
  have hcreate : create env folder fs = (loadCA (caShell folder) fs, fs) := by
    simp only [create]
    rw [if_pos hex']
  refine ⟨?_, ?_, ?_⟩
  · rw [hcreate]
    exact hbad
  · rw [hcreate]
  · intro f kp kpb hf hkp hkpb hdec
    have hf' : FS.read fs ((caShell folder).certsFolder ++ ["ca.pem"])
        = some f := hf
    have hkp' : FS.read fs ((caShell folder).keysFolder ++ ["ca.private.key"])
        = some kp := hkp
    have hkpb' : FS.read fs ((caShell folder).keysFolder ++ ["ca.public.key"])
        = some kpb := hkpb
    rw [hcreate]
    show loadCA (caShell folder) fs = .error .decodeError
    unfold loadCA
    rw [hf', hkp', hkpb']
    simp [hdec]

theorem claim5_witness :
    exceptOk (create envA ["base"] fsCorrupt).1 = false
    ∧ (create envA ["base"] fsCorrupt).2 = fsCorrupt
    ∧ (∀ f kp kpb,
        FS.read fsCorrupt ((["base"] ++ ["certs"]) ++ ["ca.pem"]) = some f
        → FS.read fsCorrupt ((["base"] ++ ["keys"]) ++ ["ca.private.key"]) = some kp
        → FS.read fsCorrupt ((["base"] ++ ["keys"]) ++ ["ca.public.key"]) = some kpb
        → certificateFromPem f = none
        → (create envA ["base"] fsCorrupt).1 = .error .decodeError) :=
  claim5_corrupt_root_store envA ["base"] fsCorrupt (by decide) (by decide)

theorem loadCA_ok (self : CA) (fs : FS) (ca' : CA)
    (h : loadCA self fs = .ok ca') :
    ∃ cert kpriv kpub,
      FS.read fs (self.certsFolder ++ ["ca.pem"]) = some (.certPem cert)
      ∧ FS.read fs (self.keysFolder ++ ["ca.private.key"]) = some (.privateKeyPem kpriv)
      ∧ FS.read fs (self.keysFolder ++ ["ca.public.key"]) = some (.publicKeyPem kpub)
      ∧ ca' = { self with CAcert := some cert, CAkeys := some ⟨kpriv, kpub⟩ } := by
  unfold loadCA at h
  split at h
  · rename_i certPEM keyPrivatePEM keyPublicPEM h1 h2 h3
    split at h
    · rename_i cert kpriv kpub d1 d2 d3
      cases h
      rw [certificateFromPem_some d1] at h1
      rw [privateKeyFromPem_some d2] at h2
      rw [publicKeyFromPem_some d3] at h3
      exact ⟨cert, kpriv, kpub, h1, h2, h3, rfl⟩
    · exact absurd h (by simp)
  · exact absurd h (by simp)

theorem generateCA_ok_writes (env : CAEnv) (self : CA) (fs : FS) (ca' : CA)
    (h : (generateCA env self fs).1 = .ok ca') :
    env.writeFails (self.certsFolder ++ ["ca.pem"]) = false
    ∧ env.writeFails (self.keysFolder ++ ["ca.private.key"]) = false
    ∧ env.writeFails (self.keysFolder ++ ["ca.public.key"]) = false := by
  simp only [generateCA] at h
  split at h
  · exact absurd h (by simp)
  · rename_i hcond
    constructor
    · revert hcond
      cases env.writeFails (self.certsFolder ++ ["ca.pem"]) <;> simp
    constructor
    · revert hcond
      cases env.writeFails (self.keysFolder ++ ["ca.private.key"]) <;> simp
    · revert hcond
      cases env.writeFails (self.keysFolder ++ ["ca.public.key"]) <;> simp

theorem generateCA_noFail_eq (env : CAEnv) (self : CA) (fs : FS)
    (h1 : env.writeFails (self.certsFolder ++ ["ca.pem"]) = false)
    (h2 : env.writeFails (self.keysFolder ++ ["ca.private.key"]) = false)
    (h3 : env.writeFails (self.keysFolder ++ ["ca.public.key"]) = false) :
    generateCA env self fs =
      (.ok { self with CAcert := some (rootCert env)
                     , CAkeys := some (generateKeyPair env.caSeed) },
       FS.write (FS.write (FS.write fs (self.certsFolder ++ ["ca.pem"])
           (.certPem (rootCert env)))
         (self.keysFolder ++ ["ca.private.key"])
         (.privateKeyPem (generateKeyPair env.caSeed).privateKey))
         (self.keysFolder ++ ["ca.public.key"])
         (.publicKeyPem (generateKeyPair env.caSeed).publicKey)) := by
  simp [generateCA, h1, h2, h3]

/-- Claim C1: root load-or-create is idempotent — when `certs/ca.pem`
already exists, `create` loads the stored root material (the returned
authority holds exactly the decoded stored certificate), and after any
successful `create`, a second `create` against the same base directory (with
arbitrary fresh entropy and clock) returns a root certificate with the same
subject, issuer and public key, leaving the store untouched. -/
theorem claim1_root_load_idempotence (env1 env2 : CAEnv) (folder : List String)
    (fs : FS) (h : exceptOk (create env1 folder fs).1 = true) :
    (∀ f c r, FS.read fs ((folder ++ ["certs"]) ++ ["ca.pem"]) = some f
      → certificateFromPem f = some c
      → (create env1 folder fs).1 = .ok r
      → r.CAcert = some c)
    ∧ ∃ ca1 ca2 r1 r2,
        (create env1 folder fs).1 = .ok ca1
        ∧ (create env2 folder (create env1 folder fs).2).1 = .ok ca2
        ∧ (create env2 folder (create env1 folder fs).2).2 = (create env1 folder fs).2
        ∧ ca1.CAcert = some r1 ∧ ca2.CAcert = some r2
        ∧ r2.subject = r1.subject ∧ r2.issuer = r1.issuer
        ∧ r2.publicKey = r1.publicKey := by
  by_cases hex : FS.existsFile fs ((caShell folder).certsFolder ++ ["ca.pem"]) = true
  · -- the root store already exists: both calls take the load branch
    have hcreate : create env1 folder fs = (loadCA (caShell folder) fs, fs) := by
      simp only [create]
      rw [if_pos hex]
    have hcreate2 : create env2 folder fs = (loadCA (caShell folder) fs, fs) := by
      simp only [create]
      rw [if_pos hex]
    rw [hcreate] at h
    have h' : exceptOk (loadCA (caShell folder) fs) = true := h
    cases hload : loadCA (caShell folder) fs with
    | error e =>
      rw [hload] at h'
      exact absurd h' (by simp [exceptOk])
    | ok ca1 =>
      obtain ⟨cert, kpriv, kpub, hr1, hr2, hr3, hshape⟩ := loadCA_ok _ _ _ hload
      constructor
      · intro f c r hf hdec hcr
        have hf' : FS.read fs ((caShell folder).certsFolder ++ ["ca.pem"])
            = some f := hf
        rw [hf'] at hr1
        have hfc : f = .certPem cert := Option.some.inj hr1
        subst hfc
        simp only [certificateFromPem, Option.some.injEq] at hdec
        rw [hcreate] at hcr
        have hlr : loadCA (caShell folder) fs = Except.ok r := hcr
        rw [hload] at hlr
        injection hlr with hh
        subst hh
        rw [hshape]
        simp [hdec]
      · refine ⟨ca1, ca1, cert, cert, ?_, ?_, ?_, ?_, ?_, rfl, rfl, rfl⟩
        · rw [hcreate]
          exact hload
        · rw [hcreate]
          show (create env2 folder fs).1 = Except.ok ca1
          rw [hcreate2]
          exact hload
        · rw [hcreate]
          show (create env2 folder fs).2 = fs
          rw [hcreate2]
        · rw [hshape]
        · rw [hshape]
  · -- fresh directory: the first call generates, the second loads it back
    have hexf : FS.existsFile fs ((caShell folder).certsFolder ++ ["ca.pem"])
        = false := by
      revert hex
      cases FS.existsFile fs ((caShell folder).certsFolder ++ ["ca.pem"]) <;> simp
    have hcreate : create env1 folder fs = generateCA env1 (caShell folder) fs := by
      simp only [create]
      rw [if_neg (by simp [hexf])]
    rw [hcreate] at h
    cases hgen : (generateCA env1 (caShell folder) fs).1 with
    | error e =>
      rw [hgen] at h
      exact absurd h (by simp [exceptOk])
    | ok ca1 =>
      obtain ⟨w1, w2, w3⟩ := generateCA_ok_writes env1 (caShell folder) fs ca1 hgen
      have hgeq := generateCA_noFail_eq env1 (caShell folder) fs w1 w2 w3
      have hca1 : ca1 = { caShell folder with
          CAcert := some (rootCert env1),
          CAkeys := some (generateKeyPair env1.caSeed) } := by
        rw [hgeq] at hgen
        exact (Except.ok.inj hgen).symm
      constructor
      · intro f c r hf hdec hcr
        have hnone : (FS.read fs ((caShell folder).certsFolder ++ ["ca.pem"])).isSome
            = false := hexf
        have hf' : FS.read fs ((caShell folder).certsFolder ++ ["ca.pem"])
            = some f := hf
        rw [hf'] at hnone
        exact absurd hnone (by simp)
      · set W := FS.write (FS.write (FS.write fs
            ((caShell folder).certsFolder ++ ["ca.pem"])
            (.certPem (rootCert env1)))
          ((caShell folder).keysFolder ++ ["ca.private.key"])
          (.privateKeyPem (generateKeyPair env1.caSeed).privateKey))
          ((caShell folder).keysFolder ++ ["ca.public.key"])
          (.publicKeyPem (generateKeyPair env1.caSeed).publicKey) with hW
        have hc1eq : create env1 folder fs
            = (.ok { caShell folder with
                CAcert := some (rootCert env1),
                CAkeys := some (generateKeyPair env1.caSeed) }, W) := by
          rw [hcreate, hgeq, hW]
        have hne12 : (caShell folder).certsFolder ++ ["ca.pem"]
            ≠ (caShell folder).keysFolder ++ ["ca.private.key"] :=
          snoc_ne (by decide)
        have hne13 : (caShell folder).certsFolder ++ ["ca.pem"]
            ≠ (caShell folder).keysFolder ++ ["ca.public.key"] :=
          snoc_ne (by decide)
        have hne23 : (caShell folder).keysFolder ++ ["ca.private.key"]
            ≠ (caShell folder).keysFolder ++ ["ca.public.key"] :=
          snoc_ne (by decide)
        have hrd1 : FS.read W ((caShell folder).certsFolder ++ ["ca.pem"])
            = some (.certPem (rootCert env1)) := by
          rw [hW, FS.read_write_ne _ _ _ _ hne13, FS.read_write_ne _ _ _ _ hne12,
            FS.read_write_self]
        have hrd2 : FS.read W ((caShell folder).keysFolder ++ ["ca.private.key"])
            = some (.privateKeyPem (generateKeyPair env1.caSeed).privateKey) := by
          rw [hW, FS.read_write_ne _ _ _ _ hne23, FS.read_write_self]
        have hrd3 : FS.read W ((caShell folder).keysFolder ++ ["ca.public.key"])
            = some (.publicKeyPem (generateKeyPair env1.caSeed).publicKey) := by
          rw [hW, FS.read_write_self]
        have hex2 : FS.existsFile W ((caShell folder).certsFolder ++ ["ca.pem"])
            = true := by
          simp [FS.existsFile, hrd1]
        have hcreate2 : create env2 folder W = (loadCA (caShell folder) W, W) := by
          simp only [create]
          rw [if_pos hex2]
        have hload2 : loadCA (caShell folder) W
            = .ok { caShell folder with
                CAcert := some (rootCert env1),
                CAkeys := some ⟨(generateKeyPair env1.caSeed).privateKey,
                  (generateKeyPair env1.caSeed).publicKey⟩ } := by
          unfold loadCA
          rw [hrd1, hrd2, hrd3]
          simp [certificateFromPem, privateKeyFromPem, publicKeyFromPem]
        refine ⟨ca1, { caShell folder with
            CAcert := some (rootCert env1),
            CAkeys := some ⟨(generateKeyPair env1.caSeed).privateKey,
              (generateKeyPair env1.caSeed).publicKey⟩ },
          rootCert env1, rootCert env1, ?_, ?_, ?_, ?_, rfl, rfl, rfl, rfl⟩
        · rw [hcreate]
          exact hgen
        · rw [hc1eq]
          show (create env2 folder W).1 = _
          rw [hcreate2]
          exact hload2
        · rw [hc1eq]
          show (create env2 folder W).2 = W
          rw [hcreate2]
        · rw [hca1]

theorem claim1_witness :
    (∀ f c r, FS.read ([] : FS) (((["base"] : List String) ++ ["certs"]) ++ ["ca.pem"]) = some f
      → certificateFromPem f = some c
      → (create envA ["base"] []).1 = .ok r
      → r.CAcert = some c)
    ∧ ∃ ca1 ca2 r1 r2,
        (create envA ["base"] []).1 = .ok ca1
        ∧ (create envB ["base"] (create envA ["base"] []).2).1 = .ok ca2
        ∧ (create envB ["base"] (create envA ["base"] []).2).2
            = (create envA ["base"] []).2
        ∧ ca1.CAcert = some r1 ∧ ca2.CAcert = some r2
        ∧ r2.subject = r1.subject ∧ r2.issuer = r1.issuer
        ∧ r2.publicKey = r1.publicKey :=
  claim1_root_load_idempotence envA envB ["base"] [] (by decide)
